import Mathlib

/-!
Verification of the `instrument_query` attribute rewriter of `sqlx-datadog`
(`src/lib.rs`).  The rewriter is embedded shallowly: token streams are lists
of tokens, `syn::Meta` attribute entries are an inductive type, the annotated
function is a structure of attribute tokens, signature tokens and a statement
list, and the rewriter itself is a pure function from parse results to either
a compile error or the rewritten output.  The host language's parsing
substrate (turning raw text into `Meta` entries / an `ItemFn`) is out of
scope and is represented by `Except` inputs.
-/

/-- A single Rust token as it appears in the token streams the rewriter
manipulates: an identifier, a punctuation mark, or a string literal. -/
inductive Tok where
  | ident (s : String)
  | punct (s : String)
  | litStr (s : String)
  deriving DecidableEq

/-- A `syn::Path`: an optional leading `::` followed by identifier segments
(path arguments are not used by the rewriter and are omitted). -/
structure SynPath where
  leadingColon : Bool
  segments : List String
  deriving DecidableEq

/-- `syn::Path::get_ident`: the single identifier of the path, when the path
has no leading colon and exactly one segment; `none` otherwise. -/
def SynPath.getIdent : SynPath → Option String
  | ⟨false, [s]⟩ => some s
  | _ => none

/-- A `syn::Meta` attribute entry: a bare path (`skip`), a name=value pair
(`db = conn`, the value kept as its token stream via `into_token_stream`), or
a name(list) entry (`fields(x, y)`, inner tokens kept verbatim). -/
inductive Meta where
  | path (p : SynPath)
  | nameValue (p : SynPath) (value : List Tok)
  | metaList (p : SynPath) (tokens : List Tok)
  deriving DecidableEq

/-- The four accessor chains the injected record statements apply to the
database handle's `connect_options()` result in `lib.rs` lines 59-66. -/
inductive Accessor where
  | getDatabase
  | getHost
  | getPort
  | schemeReplace
  deriving DecidableEq

/-- A statement of the rewritten function body: one of the injected
`::tracing::Span::current().record(...)` statements, the injected
`use ::sqlx::ConnectOptions;` statement, or an untouched user statement
(kept as its token stream). -/
inductive Stmt where
  | record (field : String) (receiver : List Tok) (acc : Accessor)
  | useConnectOptions
  | user (toks : List Tok)
  deriving DecidableEq

/-- The annotated function (`syn::ItemFn`): its pre-existing attributes, its
signature-and-visibility tokens (never touched by the rewriter) and its body
statements. -/
structure ItemFn where
  attrs : List (List Tok)
  sigTokens : List Tok
  stmts : List Stmt
  deriving DecidableEq

/-- The mutable state of the argument-classification loop of `lib.rs`
lines 36-56: the pass-through `instrument_args`, the extra `fields` token
trees, and the database-handle expression `db_ident` (initially the
identifier `db`). -/
structure ClassifyState where
  instrumentArgs : List Meta
  fields : List Tok
  dbIdent : List Tok
  deriving DecidableEq

/-- Initial classification state: no pass-through arguments, no extra
fields, and `db_ident = quote! \x7b db \x7d`. -/
def initState : ClassifyState :=
  { instrumentArgs := [], fields := [], dbIdent := [Tok.ident "db"] }

/-- One iteration of the `for arg in args` loop (`lib.rs` lines 40-56).
`Meta::NameValue` named `db` overwrites the handle expression; any other
`NameValue` is pushed to `instrument_args`.  `Meta::List` named `fields` has
its inner tokens appended to `fields`; any other `List` is pushed to
`instrument_args`.  Any other entry (a bare path) is pushed to
`instrument_args`.  The `.get_ident().unwrap()` on a multi-segment path
panics, aborting the macro expansion, which is modelled as `Except.error`. -/
def classifyArg (st : ClassifyState) (arg : Meta) : Except String ClassifyState :=
  match arg with
  | Meta.nameValue p value =>
    match p.getIdent with
    | none => Except.error "called Option::unwrap() on a None value"
    | some id =>
      if id = "db" then
        Except.ok { st with dbIdent := value }
      else
        Except.ok { st with instrumentArgs := st.instrumentArgs ++ [arg] }
  | Meta.metaList p toks =>
    match p.getIdent with
    | none => Except.error "called Option::unwrap() on a None value"
    | some id =>
      if id = "fields" then
        Except.ok { st with fields := st.fields ++ toks }
      else
        Except.ok { st with instrumentArgs := st.instrumentArgs ++ [arg] }
  | Meta.path _ =>
    Except.ok { st with instrumentArgs := st.instrumentArgs ++ [arg] }

/-- The classification loop over all invocation arguments, in order,
propagating the first failure. -/
def classifyLoop (st : ClassifyState) : List Meta → Except String ClassifyState
  | [] => Except.ok st
  | m :: rest =>
    match classifyArg st m with
    | Except.error e => Except.error e
    | Except.ok st1 => classifyLoop st1 rest

/-- Classification of the whole invocation-argument list, from the initial
state. -/
def classifyArgs (args : List Meta) : Except String ClassifyState :=
  classifyLoop initState args

/-- The `injected_tags` vector of `lib.rs` lines 58-68, in its declared
order (the source comment reads "These are in reverse"): the seven record
statements followed by the `use ::sqlx::ConnectOptions;` statement, each
record statement using the database-handle expression as the receiver of its
`connect_options()` call. -/
def injectedTags (dbIdent : List Tok) : List Stmt :=
  [Stmt.record "peer.service" dbIdent Accessor.getDatabase,
   Stmt.record "peer.hostname" dbIdent Accessor.getHost,
   Stmt.record "out.host" dbIdent Accessor.getHost,
   Stmt.record "out.port" dbIdent Accessor.getPort,
   Stmt.record "db.instance" dbIdent Accessor.getDatabase,
   Stmt.record "db.name" dbIdent Accessor.getDatabase,
   Stmt.record "db.system" dbIdent Accessor.schemeReplace,
   Stmt.useConnectOptions]

/-- The injection loop of `lib.rs` lines 69-74: each tag, in declared order,
is inserted at position 0 of the body's statement list. -/
def insertTags (tags : List Stmt) (stmts : List Stmt) : List Stmt :=
  tags.foldl (fun acc tag => tag :: acc) stmts

/-- The fixed portion of the synthesized attribute's `fields(...)` list,
transcribed token for token from the `quote!` block of `lib.rs` lines 76-95.
Note the source has no comma between `component = "sqlx"` and
`operation = "sqlx.query"`, and ends with a trailing comma after
`db.statement`. -/
def fixedFieldTokens : List Tok :=
  [Tok.ident "span", Tok.punct ".", Tok.ident "kind", Tok.punct "=", Tok.litStr "client", Tok.punct ",",
   Tok.ident "span", Tok.punct ".", Tok.ident "type", Tok.punct "=", Tok.litStr "sql", Tok.punct ",",
   Tok.ident "component", Tok.punct "=", Tok.litStr "sqlx",
   Tok.ident "operation", Tok.punct "=", Tok.litStr "sqlx.query", Tok.punct ",",
   Tok.ident "peer", Tok.punct ".", Tok.ident "hostname", Tok.punct ",",
   Tok.ident "peer", Tok.punct ".", Tok.ident "service", Tok.punct ",",
   Tok.ident "out", Tok.punct ".", Tok.ident "host", Tok.punct ",",
   Tok.ident "out", Tok.punct ".", Tok.ident "port", Tok.punct ",",
   Tok.ident "db", Tok.punct ".", Tok.ident "system", Tok.punct ",",
   Tok.ident "db", Tok.punct ".", Tok.ident "instance", Tok.punct ",",
   Tok.ident "db", Tok.punct ".", Tok.ident "name", Tok.punct ",",
   Tok.ident "db", Tok.punct ".", Tok.ident "statement", Tok.punct ","]

/-- The full content of the synthesized `fields(...)` group: the fixed
tokens followed by the `#(#fields),*` splice, which joins the collected
extra field token trees with a comma between every two consecutive token
trees. -/
def fieldListTokens (extra : List Tok) : List Tok :=
  fixedFieldTokens ++ List.intersperse (Tok.punct ",") extra

/-- Token rendering of a `syn::Path`. -/
def renderPath (p : SynPath) : List Tok :=
  (if p.leadingColon then [Tok.punct "::"] else []) ++
    List.intercalate [Tok.punct "::"] (p.segments.map (fun s => [Tok.ident s]))

/-- Token rendering of a `syn::Meta` entry (its `ToTokens` form). -/
def renderMeta : Meta → List Tok
  | Meta.path p => renderPath p
  | Meta.nameValue p value => renderPath p ++ [Tok.punct "="] ++ value
  | Meta.metaList p toks => renderPath p ++ [Tok.punct "("] ++ toks ++ [Tok.punct ")"]

/-- The `#(#instrument_args),*` splice: the pass-through entries rendered in
order, joined by commas. -/
def renderMetas (ms : List Meta) : List Tok :=
  List.intercalate [Tok.punct ","] (ms.map renderMeta)

/-- Opening tokens of the synthesized attribute, up to and including the
opening parenthesis of `fields(`. -/
def attrOpen : List Tok :=
  [Tok.punct "#", Tok.punct "[", Tok.punct "::", Tok.ident "tracing",
   Tok.punct "::", Tok.ident "instrument", Tok.punct "(",
   Tok.ident "fields", Tok.punct "("]

/-- Closing tokens of the synthesized attribute. -/
def attrClose : List Tok :=
  [Tok.punct ")", Tok.punct "]"]

/-- The whole synthesized `#[::tracing::instrument(...)]` attribute of
`lib.rs` lines 76-95: the fixed-plus-extra field list inside `fields(...)`,
directly followed (with no separating comma, as in the source) by the
rendered pass-through arguments. -/
def instrumentAttrTokens (extraFields : List Tok) (args : List Meta) : List Tok :=
  attrOpen ++ fieldListTokens extraFields ++ [Tok.punct ")"] ++ renderMetas args ++ attrClose

/-- The rewriter's output: the synthesized attribute's tokens and the
rewritten function. -/
structure Output where
  attr : List Tok
  fn : ItemFn
  deriving DecidableEq

/-- The `instrument_query` proc macro as a pure function, restricted to
invocations whose injected statements all re-parse.  Its inputs are the
results of the two `parse_macro_input!` calls (`lib.rs` lines 33-34); a
parse failure there returns the compile error unchanged.  It then
classifies the arguments (the `get_ident().unwrap()` panic aborts
expansion), prepends the injected tags to the function body, and emits the
synthesized attribute followed by the otherwise-unchanged function.  The
`syn::parse(tag.into()).unwrap()` of line 73 is modelled as succeeding
here; `instrumentQueryFull` below adds that failure path through a host
parser oracle, and `instrumentQueryFull_trivial` proves this definition is
its restriction to an always-accepting oracle. -/
def instrumentQuery (argsP : Except String (List Meta)) (itemP : Except String ItemFn) :
    Except String Output :=
  match argsP with
  | Except.error e => Except.error e
  | Except.ok args =>
    match itemP with
    | Except.error e => Except.error e
    | Except.ok fn =>
      match classifyArgs args with
      | Except.error e => Except.error e
      | Except.ok st =>
        Except.ok
          { attr := instrumentAttrTokens st.fields st.instrumentArgs,
            fn := { fn with stmts := insertTags (injectedTags st.dbIdent) fn.stmts } }

/-- Token rendering of the head of an injected record statement:
`::tracing::Span::current().record("<field>",`. -/
def recordHead (field : String) : List Tok :=
  [Tok.punct "::", Tok.ident "tracing", Tok.punct "::", Tok.ident "Span",
   Tok.punct "::", Tok.ident "current", Tok.punct "(", Tok.punct ")",
   Tok.punct ".", Tok.ident "record", Tok.punct "(", Tok.litStr field, Tok.punct ","]

/-- Token rendering of the `.connect_options()` call shared by all injected
record statements. -/
def connectOptionsCall : List Tok :=
  [Tok.punct ".", Tok.ident "connect_options", Tok.punct "(", Tok.punct ")"]

/-- Token rendering of the accessor chain applied after
`.connect_options()` in each injected record statement. -/
def accessorTail : Accessor → List Tok
  | Accessor.getDatabase => [Tok.punct ".", Tok.ident "get_database", Tok.punct "(", Tok.punct ")"]
  | Accessor.getHost => [Tok.punct ".", Tok.ident "get_host", Tok.punct "(", Tok.punct ")"]
  | Accessor.getPort => [Tok.punct ".", Tok.ident "get_port", Tok.punct "(", Tok.punct ")"]
  | Accessor.schemeReplace =>
    [Tok.punct ".", Tok.ident "to_url_lossy", Tok.punct "(", Tok.punct ")",
     Tok.punct ".", Tok.ident "scheme", Tok.punct "(", Tok.punct ")",
     Tok.punct ".", Tok.ident "replace", Tok.punct "(",
     Tok.litStr "postgres", Tok.punct ",", Tok.litStr "postgresql", Tok.punct ")"]

/-- Token rendering of a body statement. -/
def renderStmt : Stmt → List Tok
  | Stmt.useConnectOptions =>
    [Tok.ident "use", Tok.punct "::", Tok.ident "sqlx", Tok.punct "::",
     Tok.ident "ConnectOptions", Tok.punct ";"]
  | Stmt.record field recv acc =>
    recordHead field ++ recv ++ connectOptionsCall ++ accessorTail acc ++
      [Tok.punct ")", Tok.punct ";"]
  | Stmt.user toks => toks

/-- Token rendering of a function item: its attributes, its signature, and
its brace-delimited body. -/
def renderItemFn (f : ItemFn) : List Tok :=
  f.attrs.flatten ++ f.sigTokens ++ [Tok.punct "\x7b"] ++
    (f.stmts.map renderStmt).flatten ++ [Tok.punct "\x7d"]

/-- The final `quote! \x7b #instrument_attr #input_fn \x7d` output of
`lib.rs` lines 107-112: the synthesized attribute's tokens directly followed
by the re-emitted function item's tokens. -/
def outputTokens (o : Output) : List Tok :=
  o.attr ++ renderItemFn o.fn

/-- Fuel-based model of Rust's `str::replace` on character lists: scan left
to right, replacing each leftmost non-overlapping occurrence of `pat` by
`rep`.  The fuel (instantiated with the string length, which bounds the
number of scan steps) keeps the recursion structural. -/
def replaceGo (pat rep : List Char) : Nat → List Char → List Char
  | _, [] => []
  | 0, s => s
  | fuel+1, c :: rest =>
      if pat ≠ [] ∧ pat.isPrefixOf (c :: rest) then
        rep ++ replaceGo pat rep fuel ((c :: rest).drop pat.length)
      else
        c :: replaceGo pat rep fuel rest

/-- Rust's `str::replace`: every non-overlapping occurrence of `pat` in `s`
is replaced by `rep`, scanning left to right. -/
def rustReplace (s pat rep : String) : String :=
  String.mk (replaceGo pat.data rep.data s.data.length s.data)

/-- Whether `pat` occurs as a contiguous sublist of the second argument. -/
def containsSub (pat : List Char) : List Char → Bool
  | [] => pat.isEmpty
  | c :: rest => pat.isPrefixOf (c :: rest) || containsSub pat rest

/-- The connection parameters exposed by the external `connect_options()`
capability (spec section 6): host, port, database name, and the scheme of
`to_url_lossy()`. -/
structure ConnectOptions where
  host : String
  port : Nat
  database : String
  scheme : String
  deriving DecidableEq

/-- Runtime value produced by each accessor chain of the injected record
statements: `get_database()`, `get_host()`, `get_port()` (shown as its
decimal string), and `to_url_lossy().scheme().replace("postgres",
"postgresql")`. -/
def evalAccessor : Accessor → ConnectOptions → String
  | Accessor.getDatabase, c => c.database
  | Accessor.getHost, c => c.host
  | Accessor.getPort, c => toString c.port
  | Accessor.schemeReplace, c => rustReplace c.scheme "postgres" "postgresql"

/-- Whether an invocation argument is a `db = value` entry (the handle
override recognized by the classification loop). -/
def isDbArg : Meta → Bool
  | Meta.nameValue p _ => decide (p.getIdent = some "db")
  | _ => false

/-- Whether an invocation argument is a `fields(...)` entry. -/
def isFieldsArg : Meta → Bool
  | Meta.metaList p _ => decide (p.getIdent = some "fields")
  | _ => false

/-- Whether an invocation argument is forwarded verbatim to the synthesized
attribute. -/
def passThrough (m : Meta) : Bool := !(isDbArg m || isFieldsArg m)

/-- The extra field tokens contributed by an invocation argument. -/
def fieldsOf : Meta → List Tok
  | Meta.metaList p toks => if p.getIdent = some "fields" then toks else []
  | _ => []

/-- The handle expression contributed by an invocation argument, when it is
a `db = value` entry. -/
def dbValueOf : Meta → Option (List Tok)
  | Meta.nameValue p v => if p.getIdent = some "db" then some v else none
  | _ => none

/-- The value of the last `db = value` entry of the argument list, if any
(later entries win). -/
def lastDbValue : List Meta → Option (List Tok)
  | [] => none
  | m :: rest =>
    match lastDbValue rest with
    | some v => some v
    | none => dbValueOf m

/-- Whether an argument's name fails `get_ident().unwrap()` when the
classification loop inspects it: a `name = value` or `name(list)` entry
whose path is not a single plain identifier. -/
def badName : Meta → Bool
  | Meta.nameValue p _ => p.getIdent.isNone
  | Meta.metaList p _ => p.getIdent.isNone
  | Meta.path _ => false

/-- Whether an `Except` computation failed. -/
def isError {ε α : Type} : Except ε α → Bool
  | Except.error _ => true
  | Except.ok _ => false

deriving instance DecidableEq for Except

/-- Whether a token is the `await` keyword identifier (the marker of a
suspension point in the token stream). -/
def isAwaitTok : Tok → Bool
  | Tok.ident s => decide (s = "await")
  | _ => false

/-- Number of `await` tokens in a token list. -/
def awaitCount (toks : List Tok) : Nat := toks.countP isAwaitTok

/-- Number of `await` tokens in the rendering of a statement list. -/
def stmtsAwaitCount (ss : List Stmt) : Nat :=
  (ss.map (fun s => awaitCount (renderStmt s))).sum

/-- Split a flat token list at its commas. -/
def splitCommas : List Tok → List (List Tok)
  | [] => [[]]
  | t :: rest =>
    if t = Tok.punct "," then [] :: splitCommas rest
    else
      match splitCommas rest with
      | [] => [[t]]
      | g :: gs => (t :: g) :: gs

/-- The comma-separated entries of a token list, allowing one trailing
comma (as a comma-terminated attribute-meta list does). -/
def commaEntries (toks : List Tok) : List (List Tok) :=
  let gs := splitCommas toks
  if gs.getLast? = some [] then gs.dropLast else gs

/-- Modelled from the spec: the twelve fixed field entries the spec's
attribute-synthesis section lists, each as its token list, in the documented
order, to be compared with the field list the source emits. -/
def specFieldEntries : List (List Tok) :=
  [[Tok.ident "span", Tok.punct ".", Tok.ident "kind", Tok.punct "=", Tok.litStr "client"],
   [Tok.ident "span", Tok.punct ".", Tok.ident "type", Tok.punct "=", Tok.litStr "sql"],
   [Tok.ident "component", Tok.punct "=", Tok.litStr "sqlx"],
   [Tok.ident "operation", Tok.punct "=", Tok.litStr "sqlx.query"],
   [Tok.ident "peer", Tok.punct ".", Tok.ident "hostname"],
   [Tok.ident "peer", Tok.punct ".", Tok.ident "service"],
   [Tok.ident "out", Tok.punct ".", Tok.ident "host"],
   [Tok.ident "out", Tok.punct ".", Tok.ident "port"],
   [Tok.ident "db", Tok.punct ".", Tok.ident "system"],
   [Tok.ident "db", Tok.punct ".", Tok.ident "instance"],
   [Tok.ident "db", Tok.punct ".", Tok.ident "name"],
   [Tok.ident "db", Tok.punct ".", Tok.ident "statement"]]

/-- The shape condition of the implicit-behaviour claim: a bare path (any
number of segments), a `db(...)` list entry, or a `fields = value` entry. -/
def c9Shape : Meta → Bool
  | Meta.path _ => true
  | Meta.metaList p _ => decide (p.getIdent = some "db")
  | Meta.nameValue p _ => decide (p.getIdent = some "fields")

/-- The single-identifier path `db`. -/
def dbPath : SynPath := ⟨false, ["db"]⟩

/-- The single-identifier path `fields`. -/
def fieldsPath : SynPath := ⟨false, ["fields"]⟩

/-- The single-identifier path `skip`. -/
def skipPath : SynPath := ⟨false, ["skip"]⟩

/-- The single-identifier path `level`. -/
def levelPath : SynPath := ⟨false, ["level"]⟩

/-- Connection options whose URL scheme is `postgresql`. -/
def pgqlConn : ConnectOptions :=
  { host := "localhost", port := 5432, database := "app", scheme := "postgresql" }

/-- Connection options whose URL scheme is `mysql`. -/
def mysqlConn : ConnectOptions :=
  { host := "localhost", port := 3306, database := "app", scheme := "mysql" }

/-- A sample annotated function with one pre-existing attribute and one body
statement. -/
def sampleFn : ItemFn :=
  { attrs := [[Tok.punct "#", Tok.punct "[", Tok.ident "allow", Tok.punct "(",
               Tok.ident "dead_code", Tok.punct ")", Tok.punct "]"]],
    sigTokens := [Tok.ident "async", Tok.ident "fn", Tok.ident "fetch_user"],
    stmts := [Stmt.user [Tok.ident "query", Tok.punct ";"]] }

/-- A sample annotated function with no attributes and an empty body. -/
def emptyFn : ItemFn :=
  { attrs := [], sigTokens := [Tok.ident "async", Tok.ident "fn", Tok.ident "f"],
    stmts := [] }

/-- A sample annotated function with one pre-existing attribute. -/
def c10Fn : ItemFn :=
  { attrs := [[Tok.punct "#", Tok.punct "[", Tok.ident "inline", Tok.punct "]"]],
    sigTokens := [Tok.ident "async", Tok.ident "fn", Tok.ident "g"],
    stmts := [Stmt.user [Tok.ident "body"]] }

/-- Expected rewriter output for an empty invocation on `sampleFn`. -/
def c1Out : Output :=
  { attr := instrumentAttrTokens [] [],
    fn := { attrs := sampleFn.attrs, sigTokens := sampleFn.sigTokens,
            stmts := insertTags (injectedTags [Tok.ident "db"]) sampleFn.stmts } }

/-- Expected rewriter output for an empty invocation on `emptyFn`. -/
def c7Out : Output :=
  { attr := instrumentAttrTokens [] [],
    fn := { attrs := [], sigTokens := emptyFn.sigTokens,
            stmts := insertTags (injectedTags [Tok.ident "db"]) [] } }

/-- Expected rewriter output for an empty invocation on `c10Fn`. -/
def c10Out : Output :=
  { attr := instrumentAttrTokens [] [],
    fn := { attrs := c10Fn.attrs, sigTokens := c10Fn.sigTokens,
            stmts := insertTags (injectedTags [Tok.ident "db"]) c10Fn.stmts } }

/-- The inner token trees of `fields(x, y)`. -/
def xyTokens : List Tok := [Tok.ident "x", Tok.punct ",", Tok.ident "y"]

/-- A sample argument list mixing pass-through entries, two `db = ...`
overrides and a `fields(...)` entry. -/
def c4Args : List Meta :=
  [Meta.metaList skipPath [Tok.ident "db"],
   Meta.nameValue dbPath [Tok.ident "conn"],
   Meta.nameValue levelPath [Tok.litStr "info"],
   Meta.metaList fieldsPath [Tok.ident "x"],
   Meta.nameValue dbPath [Tok.ident "conn2"]]

/-- The classification state `c4Args` produces. -/
def c4St : ClassifyState :=
  { instrumentArgs := [Meta.metaList skipPath [Tok.ident "db"],
                       Meta.nameValue levelPath [Tok.litStr "info"]],
    fields := [Tok.ident "x"],
    dbIdent := [Tok.ident "conn2"] }

/-- A sample argument list supplying only `db = conn`. -/
def c6Args : List Meta := [Meta.nameValue dbPath [Tok.ident "conn"]]

/-- The classification state `c6Args` produces. -/
def c6St : ClassifyState :=
  { instrumentArgs := [], fields := [], dbIdent := [Tok.ident "conn"] }

/-- A sample argument list whose entries are all of the shapes covered by
the implicit-behaviour claim: bare `db`, bare `fields`, a bare multi-segment
path, a `db(...)` list entry, and a `fields = value` entry. -/
def c9Args : List Meta :=
  [Meta.path ⟨false, ["db"]⟩,
   Meta.path ⟨false, ["fields"]⟩,
   Meta.path ⟨false, ["a", "b"]⟩,
   Meta.metaList dbPath [Tok.ident "z"],
   Meta.nameValue fieldsPath [Tok.ident "w"]]

/-- The whole `instrument_query` proc macro including the re-parsing of each
injected statement: the insertion loop of `lib.rs` lines 69-74 calls
`syn::parse(tag.into()).unwrap()` on every tag, and that unwrap panics
(aborting expansion with no output) when the spliced database-handle
expression makes the statement's token stream unparseable.  Whether a token
stream parses as a Rust statement is decided by the host parser — the
out-of-scope substrate — so it enters as the oracle `stmtOk`, exactly as the
two `parse_macro_input!` results enter as `Except` inputs: expansion aborts
iff some injected statement's token rendering fails the oracle. -/
def instrumentQueryFull (stmtOk : List Tok → Bool) (argsP : Except String (List Meta))
    (itemP : Except String ItemFn) : Except String Output :=
  match argsP with
  | Except.error e => Except.error e
  | Except.ok args =>
    match itemP with
    | Except.error e => Except.error e
    | Except.ok fn =>
      match classifyArgs args with
      | Except.error e => Except.error e
      | Except.ok st =>
        if (injectedTags st.dbIdent).all (fun s => stmtOk (renderStmt s)) then
          Except.ok
            { attr := instrumentAttrTokens st.fields st.instrumentArgs,
              fn := { fn with stmts := insertTags (injectedTags st.dbIdent) fn.stmts } }
        else
          Except.error "called Result::unwrap() on an Err value"

/-- Whether a token is an identifier. -/
def isIdentTok : Tok → Bool
  | Tok.ident _ => true
  | _ => false

/-- Whether a token stream contains a cast directly followed by a method
call: an `as` keyword, then a type identifier, then a `.`. -/
def hasCastMethodCall : List Tok → Bool
  | t1 :: t2 :: t3 :: rest =>
    (decide (t1 = Tok.ident "as") && isIdentTok t2 && decide (t3 = Tok.punct ".")) ||
      hasCastMethodCall (t2 :: t3 :: rest)
  | _ => false

/-- Modelled from the spec: a concrete instance of the out-of-scope host
parser oracle, capturing one Rust grammar fact — a cast expression cannot be
directly followed by a method call, so a statement whose tokens contain
`as <ident> .` is rejected; every other statement is accepted. -/
def castStmtOk (toks : List Tok) : Bool := !hasCastMethodCall toks

/-- The token stream of the handle expression `x as PgPool`. -/
def castRecv : List Tok := [Tok.ident "x", Tok.ident "as", Tok.ident "PgPool"]

/-- The argument list of the invocation `db = x as PgPool`. -/
def c8CexArgs : List Meta := [Meta.nameValue dbPath castRecv]

/-- The token stream of the handle expression `x.await`. -/
def awaitRecv : List Tok := [Tok.ident "x", Tok.punct ".", Tok.ident "await"]

/-- The argument list of the invocation `db = x.await`. -/
def c7CexArgs : List Meta := [Meta.nameValue dbPath awaitRecv]

/-- The rewriter output for the invocation `db = x.await` on `emptyFn`. -/
def c7CexOut : Output :=
  { attr := instrumentAttrTokens [] [],
    fn := { attrs := [], sigTokens := emptyFn.sigTokens,
            stmts := insertTags (injectedTags awaitRecv) [] } }

theorem classifyLoop_ok (args : List Meta) : ∀ st0 st : ClassifyState,
    classifyLoop st0 args = Except.ok st →
    st.instrumentArgs = st0.instrumentArgs ++ args.filter passThrough ∧
    st.fields = st0.fields ++ (args.map fieldsOf).flatten ∧
    st.dbIdent = (lastDbValue args).getD st0.dbIdent := by
  induction args with
  | nil =>
    intro st0 st h
    simp only [classifyLoop] at h
    cases h
    simp [lastDbValue]
  | cons m rest ih =>
    intro st0 st h
    match m with
    | Meta.path p =>
      simp only [classifyLoop, classifyArg] at h
      obtain ⟨h1, h2, h3⟩ := ih _ _ h
      refine ⟨?_, ?_, ?_⟩
      · rw [h1]
        simp [passThrough, isDbArg, isFieldsArg, List.filter_cons]
      · rw [h2]
        simp [fieldsOf]
      · rw [h3]
        cases hrest : lastDbValue rest <;> simp [lastDbValue, hrest, dbValueOf]
    | Meta.nameValue p v =>
      match hid : p.getIdent with
      | none =>
        simp only [classifyLoop, classifyArg, hid] at h
        exact Except.noConfusion h
      | some id =>
        by_cases hdb : id = "db"
        · subst hdb
          simp only [classifyLoop, classifyArg, hid, if_pos] at h
          obtain ⟨h1, h2, h3⟩ := ih _ _ h
          refine ⟨?_, ?_, ?_⟩
          · rw [h1]
            simp [passThrough, isDbArg, hid, List.filter_cons]
          · rw [h2]
            simp [fieldsOf]
          · rw [h3]
            cases hrest : lastDbValue rest <;> simp [lastDbValue, hrest, dbValueOf, hid]
        · simp only [classifyLoop, classifyArg, hid, if_neg hdb] at h
          obtain ⟨h1, h2, h3⟩ := ih _ _ h
          refine ⟨?_, ?_, ?_⟩
          · rw [h1]
            simp [passThrough, isDbArg, isFieldsArg, hid, hdb, List.filter_cons]
          · rw [h2]
            simp [fieldsOf]
          · rw [h3]
            cases hrest : lastDbValue rest <;>
              simp [lastDbValue, hrest, dbValueOf, hid, hdb]
    | Meta.metaList p toks =>
      match hid : p.getIdent with
      | none =>
        simp only [classifyLoop, classifyArg, hid] at h
        exact Except.noConfusion h
      | some id =>
        by_cases hf : id = "fields"
        · subst hf
          simp only [classifyLoop, classifyArg, hid, if_pos] at h
          obtain ⟨h1, h2, h3⟩ := ih _ _ h
          refine ⟨?_, ?_, ?_⟩
          · rw [h1]
            simp [passThrough, isFieldsArg, hid, List.filter_cons]
          · rw [h2]
            simp [fieldsOf, hid]
          · rw [h3]
            cases hrest : lastDbValue rest <;> simp [lastDbValue, hrest, dbValueOf]
        · simp only [classifyLoop, classifyArg, hid, if_neg hf] at h
          obtain ⟨h1, h2, h3⟩ := ih _ _ h
          refine ⟨?_, ?_, ?_⟩
          · rw [h1]
            simp [passThrough, isDbArg, isFieldsArg, hid, hf, List.filter_cons]
          · rw [h2]
            simp [fieldsOf, hid, hf]
          · rw [h3]
            cases hrest : lastDbValue rest <;> simp [lastDbValue, hrest, dbValueOf]

theorem classifyLoop_error (args : List Meta) : ∀ st0 : ClassifyState,
    isError (classifyLoop st0 args) = args.any badName := by
  induction args with
  | nil =>
    intro st0
    simp [classifyLoop, isError]
  | cons m rest ih =>
    intro st0
    match m with
    | Meta.path p =>
      simp [classifyLoop, classifyArg, badName, ih]
    | Meta.nameValue p v =>
      match hid : p.getIdent with
      | none =>
        simp [classifyLoop, classifyArg, hid, badName, isError]
      | some id =>
        by_cases hdb : id = "db" <;>
          simp [classifyLoop, classifyArg, hid, hdb, badName, ih]
    | Meta.metaList p toks =>
      match hid : p.getIdent with
      | none =>
        simp [classifyLoop, classifyArg, hid, badName, isError]
      | some id =>
        by_cases hf : id = "fields" <;>
          simp [classifyLoop, classifyArg, hid, hf, badName, ih]

theorem insertTags_eq (tags stmts : List Stmt) :
    insertTags tags stmts = tags.reverse ++ stmts := by
  induction tags generalizing stmts with
  | nil => simp [insertTags]
  | cons t ts ih =>
    show insertTags ts (t :: stmts) = (t :: ts).reverse ++ stmts
    rw [ih]
    simp

theorem replaceGo_no_match (pat rep : List Char) :
    ∀ (s : List Char) (fuel : Nat), containsSub pat s = false →
      replaceGo pat rep fuel s = s := by
  intro s
  induction s with
  | nil =>
    intro fuel h
    cases fuel <;> rfl
  | cons c rest ih =>
    intro fuel h
    simp only [containsSub, Bool.or_eq_false_iff] at h
    obtain ⟨h1, h2⟩ := h
    cases fuel with
    | zero => rfl
    | succ f =>
      rw [replaceGo, if_neg, ih f h2]
      rintro ⟨-, hpre⟩
      rw [h1] at hpre
      exact absurd hpre (by decide)

theorem stringMkData (s : String) : String.mk s.data = s := by
  cases s
  rfl

theorem awaitCount_record (f : String) (recv : List Tok) (acc : Accessor) :
    awaitCount (renderStmt (Stmt.record f recv acc)) = awaitCount recv := by
  cases acc <;>
    simp [renderStmt, recordHead, connectOptionsCall, accessorTail, awaitCount,
      List.countP_append, List.countP_cons, isAwaitTok]

theorem awaitCount_use : awaitCount (renderStmt Stmt.useConnectOptions) = 0 := by decide

theorem stmtsAwaitCount_append (a b : List Stmt) :
    stmtsAwaitCount (a ++ b) = stmtsAwaitCount a + stmtsAwaitCount b := by
  simp [stmtsAwaitCount]

theorem stmtsAwaitCount_reverse (a : List Stmt) :
    stmtsAwaitCount a.reverse = stmtsAwaitCount a := by
  simp [stmtsAwaitCount, List.map_reverse, List.sum_reverse]

theorem stmtsAwaitCount_injected (d : List Tok) (h : awaitCount d = 0) :
    stmtsAwaitCount (injectedTags d) = 0 := by
  simp [stmtsAwaitCount, injectedTags, awaitCount_record, awaitCount_use, h]

theorem c9_loop (args : List Meta) : ∀ st0 : ClassifyState, args.all c9Shape = true →
    classifyLoop st0 args =
      Except.ok { st0 with instrumentArgs := st0.instrumentArgs ++ args } := by
  induction args with
  | nil =>
    intro st0 h
    simp [classifyLoop]
  | cons m rest ih =>
    intro st0 h
    simp only [List.all_cons, Bool.and_eq_true] at h
    obtain ⟨hm, hrest⟩ := h
    match m with
    | Meta.path p =>
      simp only [classifyLoop, classifyArg]
      rw [ih _ hrest]
      simp
    | Meta.metaList p toks =>
      have hne : ("db" : String) ≠ "fields" := by decide
      simp only [c9Shape, decide_eq_true_eq] at hm
      simp only [classifyLoop, classifyArg, hm, if_neg hne]
      rw [ih _ hrest]
      simp
    | Meta.nameValue p v =>
      have hne : ("fields" : String) ≠ "db" := by decide
      simp only [c9Shape, decide_eq_true_eq] at hm
      simp only [classifyLoop, classifyArg, hm, if_neg hne]
      rw [ih _ hrest]
      simp

/-- C1: for every successfully parsed invocation and annotated function, the
eight injected statements appear at the front of the emitted body in exactly
the order scope-bringing `use`, `db.system`, `db.name`, `db.instance`,
`out.port`, `out.host`, `peer.hostname`, `peer.service` (the reverse of the
declared construction list, since each statement is inserted at body
position 0), with `peer.service` immediately preceding the original first
statement of the body. -/
theorem c1_injected_statement_order (args : List Meta) (fn : ItemFn)
    (st : ClassifyState) (out : Output)
    (hc : classifyArgs args = Except.ok st)
    (h : instrumentQuery (Except.ok args) (Except.ok fn) = Except.ok out) :
    out.fn.stmts =
      [Stmt.useConnectOptions,
       Stmt.record "db.system" st.dbIdent Accessor.schemeReplace,
       Stmt.record "db.name" st.dbIdent Accessor.getDatabase,
       Stmt.record "db.instance" st.dbIdent Accessor.getDatabase,
       Stmt.record "out.port" st.dbIdent Accessor.getPort,
       Stmt.record "out.host" st.dbIdent Accessor.getHost,
       Stmt.record "peer.hostname" st.dbIdent Accessor.getHost,
       Stmt.record "peer.service" st.dbIdent Accessor.getDatabase] ++ fn.stmts := by
  simp only [instrumentQuery, hc, Except.ok.injEq] at h
  subst h
  simp [insertTags_eq, injectedTags]

theorem c1_injected_statement_order_witness :
    (classifyArgs [] = Except.ok initState ∧
     instrumentQuery (Except.ok []) (Except.ok sampleFn) = Except.ok c1Out) ∧
    c1Out.fn.stmts =
      [Stmt.useConnectOptions,
       Stmt.record "db.system" initState.dbIdent Accessor.schemeReplace,
       Stmt.record "db.name" initState.dbIdent Accessor.getDatabase,
       Stmt.record "db.instance" initState.dbIdent Accessor.getDatabase,
       Stmt.record "out.port" initState.dbIdent Accessor.getPort,
       Stmt.record "out.host" initState.dbIdent Accessor.getHost,
       Stmt.record "peer.hostname" initState.dbIdent Accessor.getHost,
       Stmt.record "peer.service" initState.dbIdent Accessor.getDatabase] ++ sampleFn.stmts :=
  ⟨⟨by decide, by decide⟩,
   c1_injected_statement_order [] sampleFn initState c1Out (by decide) (by decide)⟩

/-- C2, evaluated at the failing input: with an empty invocation-argument
list the synthesized attribute carries `fieldListTokens []`, but that token
list is NOT the well-formed twelve-entry comma-separated list the claim
describes: because the source writes no comma between `component = "sqlx"`
and `operation = "sqlx.query"`, splitting at commas yields eleven groups,
the third being the two merged entries. -/
theorem c2_field_list_malformed :
    (instrumentQuery (Except.ok []) (Except.ok sampleFn)).map Output.attr =
      Except.ok (instrumentAttrTokens [] []) ∧
    commaEntries (fieldListTokens []) ≠ specFieldEntries ∧
    (commaEntries (fieldListTokens [])).length = 11 ∧
    (commaEntries (fieldListTokens []))[2]? =
      some [Tok.ident "component", Tok.punct "=", Tok.litStr "sqlx",
            Tok.ident "operation", Tok.punct "=", Tok.litStr "sqlx.query"] := by
  refine ⟨by decide, by decide, by decide, by decide⟩

/-- C3 counterexample: the scheme `postgresql` differs from `postgres`, yet
the injected `db.system` expression records it as `postgresqlql` (the
substring `postgres` is replaced inside it), not unchanged as the claim
states. -/
theorem c3_counterexample :
    pgqlConn.scheme ≠ "postgres" ∧
    evalAccessor Accessor.schemeReplace pgqlConn = "postgresqlql" ∧
    evalAccessor Accessor.schemeReplace pgqlConn ≠ pgqlConn.scheme := by
  refine ⟨by decide, by decide, by decide⟩

/-- C3 (amended): the injected `db.system` statement records the connection
URL's scheme with every occurrence of the substring `postgres` replaced by
`postgresql`: a scheme equal to `postgres` is recorded as `postgresql`, and
a scheme not containing the substring `postgres` (for example `mysql`) is
recorded unchanged. -/
theorem c3_db_system_scheme (d : List Tok) (c : ConnectOptions) :
    Stmt.record "db.system" d Accessor.schemeReplace ∈ injectedTags d ∧
    (c.scheme = "postgres" → evalAccessor Accessor.schemeReplace c = "postgresql") ∧
    (containsSub ("postgres".data) c.scheme.data = false →
      evalAccessor Accessor.schemeReplace c = c.scheme) := by
  refine ⟨?_, ?_, ?_⟩
  · simp [injectedTags]
  · intro h
    simp only [evalAccessor]
    rw [h]
    decide
  · intro h
    simp only [evalAccessor, rustReplace]
    rw [replaceGo_no_match _ _ _ _ h, stringMkData]

theorem c3_db_system_scheme_witness :
    (containsSub ("postgres".data) mysqlConn.scheme.data = false) ∧
    evalAccessor Accessor.schemeReplace mysqlConn = mysqlConn.scheme :=
  ⟨by decide, (c3_db_system_scheme [Tok.ident "db"] mysqlConn).2.2 (by decide)⟩

/-- C4: under successful classification the arguments are partitioned in
order: the last `db = value` entry determines the handle expression (default
`db`), the inner tokens of every `fields(...)` entry are appended to the
extra field list, and every other entry is kept, unchanged and in its
original relative order, as the pass-through list that the synthesized
attribute carries as its trailing argument list. -/
theorem c4_argument_partition (args : List Meta) (st : ClassifyState)
    (h : classifyArgs args = Except.ok st) :
    st.instrumentArgs = args.filter passThrough ∧
    st.fields = (args.map fieldsOf).flatten ∧
    st.dbIdent = (lastDbValue args).getD [Tok.ident "db"] ∧
    instrumentAttrTokens st.fields st.instrumentArgs =
      attrOpen ++ fieldListTokens st.fields ++ [Tok.punct ")"] ++
        renderMetas (args.filter passThrough) ++ attrClose := by
  obtain ⟨h1, h2, h3⟩ := classifyLoop_ok args initState st h
  have h1' : st.instrumentArgs = args.filter passThrough := by
    simpa [initState] using h1
  refine ⟨h1', ?_, ?_, ?_⟩
  · simpa [initState] using h2
  · simpa [initState] using h3
  · simp only [instrumentAttrTokens, h1']

theorem c4_argument_partition_witness :
    classifyArgs c4Args = Except.ok c4St ∧
    (c4St.instrumentArgs = c4Args.filter passThrough ∧
     c4St.fields = (c4Args.map fieldsOf).flatten ∧
     c4St.dbIdent = (lastDbValue c4Args).getD [Tok.ident "db"] ∧
     instrumentAttrTokens c4St.fields c4St.instrumentArgs =
       attrOpen ++ fieldListTokens c4St.fields ++ [Tok.punct ")"] ++
         renderMetas (c4Args.filter passThrough) ++ attrClose) :=
  ⟨by decide, c4_argument_partition c4Args c4St (by decide)⟩

/-- C5, evaluated at the failing input `fields(x, y)`: classification
collects the three inner token trees `x`, `,`, `y`, but the `#(#fields),*`
splice inserts a comma between every two consecutive collected token trees,
so the synthesized field list ends with `x , , , y` rather than with exactly
the tokens `x , y` after the fixed fields. -/
theorem c5_fields_splice_duplicates_commas :
    classifyArgs [Meta.metaList fieldsPath xyTokens] =
      Except.ok { instrumentArgs := [], fields := xyTokens, dbIdent := [Tok.ident "db"] } ∧
    fieldListTokens xyTokens =
      fixedFieldTokens ++
        [Tok.ident "x", Tok.punct ",", Tok.punct ",", Tok.punct ",", Tok.ident "y"] ∧
    fieldListTokens xyTokens ≠ fixedFieldTokens ++ xyTokens := by
  refine ⟨by decide, by decide, by decide⟩

/-- C6: every injected record statement uses the classified handle
expression as the receiver of its `connect_options()` call; when the
invocation supplies no `db = value` argument that expression is the
identifier `db`, and when it supplies `db = conn` (the last such entry) the
expression is `conn`. -/
theorem c6_receiver (args : List Meta) (st : ClassifyState)
    (h : classifyArgs args = Except.ok st) :
    (∀ f recv acc, Stmt.record f recv acc ∈ injectedTags st.dbIdent → recv = st.dbIdent) ∧
    (lastDbValue args = none → st.dbIdent = [Tok.ident "db"]) ∧
    (∀ conn, lastDbValue args = some conn → st.dbIdent = conn) := by
  obtain ⟨-, -, h3⟩ := classifyLoop_ok args initState st h
  refine ⟨?_, ?_, ?_⟩
  · intro f recv acc hmem
    simp only [injectedTags, List.mem_cons, List.not_mem_nil, or_false,
      Stmt.record.injEq] at hmem
    rcases hmem with ⟨-, h', -⟩|⟨-, h', -⟩|⟨-, h', -⟩|⟨-, h', -⟩|⟨-, h', -⟩|⟨-, h', -⟩|⟨-, h', -⟩|h'
    · exact h'
    · exact h'
    · exact h'
    · exact h'
    · exact h'
    · exact h'
    · exact h'
    · exact Stmt.noConfusion h'
  · intro hnone
    rw [h3, hnone]
    rfl
  · intro conn hsome
    rw [h3, hsome]
    rfl

theorem c6_receiver_witness :
    classifyArgs c6Args = Except.ok c6St ∧
    ((∀ f recv acc, Stmt.record f recv acc ∈ injectedTags c6St.dbIdent → recv = c6St.dbIdent) ∧
     (lastDbValue c6Args = none → c6St.dbIdent = [Tok.ident "db"]) ∧
     (∀ conn, lastDbValue c6Args = some conn → c6St.dbIdent = conn)) :=
  ⟨by decide, c6_receiver c6Args c6St (by decide)⟩

/-- C7 (amended): on success the rewrite only prepends the eight injected
statements and attaches the synthesized attribute: the function's
pre-existing attributes and signature are unchanged, the original body
statements follow the injected ones unchanged and in order, and — provided
the database-handle expression itself contains no `await` token (the
default `db` in particular) — the rewritten body has exactly the suspension
points of the original body. -/
theorem c7_frame (args : List Meta) (fn : ItemFn) (st : ClassifyState) (out : Output)
    (hc : classifyArgs args = Except.ok st)
    (h : instrumentQuery (Except.ok args) (Except.ok fn) = Except.ok out) :
    out.fn.attrs = fn.attrs ∧
    out.fn.sigTokens = fn.sigTokens ∧
    out.fn.stmts = (injectedTags st.dbIdent).reverse ++ fn.stmts ∧
    (awaitCount st.dbIdent = 0 →
      stmtsAwaitCount out.fn.stmts = stmtsAwaitCount fn.stmts) := by
  simp only [instrumentQuery, hc, Except.ok.injEq] at h
  subst h
  refine ⟨rfl, rfl, ?_, ?_⟩
  · simp [insertTags_eq]
  · intro ha
    simp [insertTags_eq, stmtsAwaitCount_append, stmtsAwaitCount_reverse,
      stmtsAwaitCount_injected _ ha]

theorem c7_frame_witness :
    (classifyArgs [] = Except.ok initState ∧
     instrumentQuery (Except.ok []) (Except.ok emptyFn) = Except.ok c7Out) ∧
    (c7Out.fn.attrs = emptyFn.attrs ∧
     c7Out.fn.sigTokens = emptyFn.sigTokens ∧
     c7Out.fn.stmts = (injectedTags initState.dbIdent).reverse ++ emptyFn.stmts ∧
     (awaitCount initState.dbIdent = 0 →
       stmtsAwaitCount c7Out.fn.stmts = stmtsAwaitCount emptyFn.stmts)) :=
  ⟨⟨by decide, by decide⟩, c7_frame [] emptyFn initState c7Out (by decide) (by decide)⟩

theorem allConstTrue {α : Type} (l : List α) : (l.all fun _ => true) = true := by
  induction l with
  | nil => rfl
  | cons a t ih => simp [List.all_cons, ih]

theorem instrumentQueryFull_trivial (argsP : Except String (List Meta))
    (itemP : Except String ItemFn) :
    instrumentQueryFull (fun _ => true) argsP itemP = instrumentQuery argsP itemP := by
  cases argsP with
  | error e => rfl
  | ok args =>
    cases itemP with
    | error e => rfl
    | ok fn =>
      cases hc : classifyArgs args with
      | error e => simp [instrumentQueryFull, instrumentQuery, hc]
      | ok st => simp [instrumentQueryFull, instrumentQuery, hc, allConstTrue]

/-- C7 counterexample: the invocation `db = x.await` is successfully
processed (the spliced statements parse), yet the rewritten body of a
function with no suspension points contains seven `await` tokens — one in
each injected record statement — so the rewrite does add suspension
points. -/
theorem c7_counterexample :
    instrumentQuery (Except.ok c7CexArgs) (Except.ok emptyFn) = Except.ok c7CexOut ∧
    stmtsAwaitCount emptyFn.stmts = 0 ∧
    stmtsAwaitCount c7CexOut.fn.stmts = 7 := by
  refine ⟨by decide, by decide, by decide⟩

/-- C8 counterexample: for the invocation `db = x as PgPool` none of the
three claimed failure cases holds — the arguments parse, the item parses,
and every argument name is a single identifier — yet expansion aborts,
because the spliced statement contains a cast directly followed by a method
call, which the host parser (here the oracle `castStmtOk`) rejects, making
the `syn::parse(tag.into()).unwrap()` of `lib.rs` line 73 panic: a fourth
failure case. -/
theorem c8_counterexample :
    isError (Except.ok c8CexArgs : Except String (List Meta)) = false ∧
    isError (Except.ok emptyFn : Except String ItemFn) = false ∧
    c8CexArgs.any badName = false ∧
    isError (instrumentQueryFull castStmtOk (Except.ok c8CexArgs) (Except.ok emptyFn)) = true := by
  refine ⟨by decide, by decide, by decide, by decide⟩

/-- C8 (amended): the rewrite fails (and produces no output, since the
result type offers either an error or a full output) exactly in four cases:
the invocation arguments fail to parse, or the annotated item fails to
parse as a function, or some `name = value` / `name(list)` argument's name
is not a single plain identifier when the classification inspects it, or
the re-parsing of an injected statement fails because the spliced
database-handle expression makes its token stream unparseable.  With a
handle expression whose splices all re-parse (in particular the default
`db`), the first three cases are exhaustive. -/
theorem c8_failure_cases_full (stmtOk : List Tok → Bool)
    (argsP : Except String (List Meta)) (itemP : Except String ItemFn) :
    isError (instrumentQueryFull stmtOk argsP itemP) = true ↔
      (isError argsP = true ∨ isError itemP = true ∨
        (∃ args, argsP = Except.ok args ∧ args.any badName = true) ∨
        (∃ args st, argsP = Except.ok args ∧ isError itemP = false ∧
          classifyArgs args = Except.ok st ∧
          ((injectedTags st.dbIdent).all fun s => stmtOk (renderStmt s)) = false)) := by
  cases argsP with
  | error e => simp [instrumentQueryFull, isError]
  | ok args =>
    cases itemP with
    | error e => simp [instrumentQueryFull, isError]
    | ok fn =>
      cases hc : classifyArgs args with
      | error e =>
        have hb : args.any badName = true := by
          rw [← classifyLoop_error args initState,
            show classifyLoop initState args = Except.error e from hc]
          rfl
        have hL : isError (instrumentQueryFull stmtOk (Except.ok args) (Except.ok fn)) = true := by
          simp [instrumentQueryFull, hc, isError]
        rw [hL]
        simp only [true_iff]
        exact Or.inr (Or.inr (Or.inl ⟨args, rfl, hb⟩))
      | ok st =>
        have hb : args.any badName = false := by
          rw [← classifyLoop_error args initState,
            show classifyLoop initState args = Except.ok st from hc]
          rfl
        cases hall : (injectedTags st.dbIdent).all (fun s => stmtOk (renderStmt s)) with
        | true =>
          have hL : isError (instrumentQueryFull stmtOk (Except.ok args) (Except.ok fn)) = false := by
            simp [instrumentQueryFull, hc, hall, isError]
          rw [hL]
          constructor
          · intro h'
            exact Bool.noConfusion h'
          · rintro (h'|h'|⟨args', ha, hany⟩|⟨args', st', ha, -, hcl, hallf⟩)
            · simp [isError] at h'
            · simp [isError] at h'
            · injection ha with ha'
              subst ha'
              rw [hb] at hany
              exact Bool.noConfusion hany
            · injection ha with ha'
              subst ha'
              rw [hc] at hcl
              injection hcl with hst
              subst hst
              rw [hall] at hallf
              exact Bool.noConfusion hallf
        | false =>
          have hL : isError (instrumentQueryFull stmtOk (Except.ok args) (Except.ok fn)) = true := by
            simp [instrumentQueryFull, hc, hall, isError]
          rw [hL]
          simp only [true_iff]
          exact Or.inr (Or.inr (Or.inr ⟨args, st, rfl, rfl, hc, hall⟩))

/-- C9: the special-casing of `db` and `fields` depends on the entry's
shape: a name-only argument is passed through without its name ever being
inspected (so a bare `db`, a bare `fields` or a bare multi-segment path
never fails), and a `db(...)` list entry or a `fields = value` entry is
likewise passed through rather than treated as the handle override or the
extra field list. -/
theorem c9_shape_passthrough (args : List Meta) (h : args.all c9Shape = true) :
    classifyArgs args =
      Except.ok { instrumentArgs := args, fields := [], dbIdent := [Tok.ident "db"] } := by
  have := c9_loop args initState h
  simpa [classifyArgs, initState] using this

theorem c9_shape_passthrough_witness :
    c9Args.all c9Shape = true ∧
    classifyArgs c9Args =
      Except.ok { instrumentArgs := c9Args, fields := [], dbIdent := [Tok.ident "db"] } :=
  ⟨by decide, c9_shape_passthrough c9Args (by decide)⟩

/-- C10: the pre-existing attributes of the annotated function are preserved
unchanged on the re-emitted function, and the synthesized attribute's tokens
precede the entire re-emitted item, hence all pre-existing attributes. -/
theorem c10_attr_placement (args : List Meta) (fn : ItemFn) (out : Output)
    (h : instrumentQuery (Except.ok args) (Except.ok fn) = Except.ok out) :
    out.fn.attrs = fn.attrs ∧
    outputTokens out =
      out.attr ++ fn.attrs.flatten ++ fn.sigTokens ++ [Tok.punct "\x7b"] ++
        (out.fn.stmts.map renderStmt).flatten ++ [Tok.punct "\x7d"] := by
  cases hc : classifyArgs args with
  | error e => simp [instrumentQuery, hc] at h
  | ok st =>
    simp only [instrumentQuery, hc, Except.ok.injEq] at h
    subst h
    refine ⟨rfl, ?_⟩
    simp [outputTokens, renderItemFn]

theorem c10_attr_placement_witness :
    instrumentQuery (Except.ok []) (Except.ok c10Fn) = Except.ok c10Out ∧
    (c10Out.fn.attrs = c10Fn.attrs ∧
     outputTokens c10Out =
       c10Out.attr ++ c10Fn.attrs.flatten ++ c10Fn.sigTokens ++ [Tok.punct "\x7b"] ++
         (c10Out.fn.stmts.map renderStmt).flatten ++ [Tok.punct "\x7d"]) :=
  ⟨by decide, c10_attr_placement [] c10Fn c10Out (by decide)⟩
